import Mathlib

/-!
Verification of the functools pipeline toolkit (Go).

Shallow embedding conventions:
* A Go channel stage is deterministic in the sequence of values it delivers,
  so a drained pipeline stage is modelled by the `List` of values that travel
  through its channel, in send order.  Go slices are modelled by `List`
  (a Go nil slice and an empty slice are observationally the same sequence).
* Go `any` (interface values of mixed runtime type) is modelled by the
  inductive `GoAny`; a type assertion `v.(T)` is modelled by a projection
  returning `Option`.
* A generator `func(chan T)` that terminates is equivalent to the list of
  values it sends, so constructors taking generators take that list.
* `make(chan T, n)` capacities and the `BufferSize` struct field are Go
  `int`s, modelled by `Int`; the capacity the code passes to `make` for a
  stage is recorded in the `chanCap` field of the model.
-/

namespace Functools

/-- Go interface value of dynamic type: here either an `int` or a `string`
(the runtime types used by the recast scenario). -/
inductive GoAny where
  | int (n : Int)
  | str (s : String)
deriving DecidableEq, Repr

/-- Model of the Go type assertion `v.(int)`. -/
def GoAny.asInt : GoAny → Option Int
  | .int n => some n
  | .str _ => none

/-- Model of the Go type assertion `v.(string)`. -/
def GoAny.asStr : GoAny → Option String
  | .int _ => none
  | .str s => some s

/-- Go `streamable` (streams.go): wraps an unbuffered channel; modelled by the
sequence of values delivered over that channel. -/
structure streamable (α : Type) where
  stream : List α

/-- Go `bufferedStream` (bufferedStreams.go): wraps a buffered channel and
records the requested buffer size in the exported `BufferSize` field.
`chanCap` records the capacity the constructing code passed to `make`. -/
structure bufferedStream (α : Type) where
  stream : List α
  chanCap : Int
  BufferSize : Int

/-- Go `iterable` (slices file): a materialized slice. -/
structure iterable (α : Type) where
  items : List α

/-! ## streams.go -/

/-- Go `Streamify`: spawns a worker sending every element of `items` then
closing; delivered sequence is `items`. -/
def Streamify (items : List α) : streamable α := ⟨items⟩

/-- Go `CreateStream`: runs the generator on a worker; `sent` is the list of
values the generator sends before returning. -/
def CreateStream (sent : List α) : streamable α := ⟨sent⟩

/-- Go `streamable.Pipe`: worker reads upstream until close, applies `fn`,
forwards each result (loop `for v := range s.stream { out <- fn(v) }`).
The Go output element type `any` is modelled by the type `β` of values
`fn` actually produces. -/
def streamable.Pipe (s : streamable α) (fn : α → β) : streamable β :=
  ⟨s.stream.map fn⟩

/-- Go `streamable.Filter`: forwards `v` exactly when `fn v` holds
(loop `for v := range s.stream { if fn(v) { out <- v } }`). -/
def streamable.Filter (s : streamable α) (fn : α → Bool) : streamable α :=
  ⟨s.stream.filter fn⟩

/-- Go `streamable.ToSlice`: `var result []T; for v := range s.stream
{ result = append(result, v) }; return result`. -/
def streamable.ToSlice (s : streamable α) : List α :=
  s.stream.foldl (fun result v => result ++ [v]) []

/-- Go `streamable.ToBufferedStream`: relays into a channel made with capacity
`bufferSize`; the returned literal `&bufferedStream{stream: ch}` leaves the
`BufferSize` field at its zero value. -/
def streamable.ToBufferedStream (s : streamable α) (bufferSize : Int) :
    bufferedStream α :=
  { stream := s.stream, chanCap := bufferSize, BufferSize := 0 }

/-- Go `RecastStream`: forwards `casted` exactly when the type assertion
`v.(StreamType)` succeeds, silently dropping the rest; the assertion is the
projection `tryCast`. -/
def RecastStream (tryCast : GoAny → Option β) (s : streamable GoAny) :
    streamable β :=
  ⟨s.stream.filterMap tryCast⟩

/-! ## bufferedStreams.go -/

/-- Go `StreamifyWithBuffer`: channel made with capacity `bufferSize`, field
`BufferSize` set to it. -/
def StreamifyWithBuffer (items : List α) (bufferSize : Int) :
    bufferedStream α :=
  { stream := items, chanCap := bufferSize, BufferSize := bufferSize }

/-- Go `CreateBufferedStream`: as `CreateStream` but the channel is made with
capacity `bufferSize` and the field `BufferSize` is set to it. -/
def CreateBufferedStream (sent : List α) (bufferSize : Int) :
    bufferedStream α :=
  { stream := sent, chanCap := bufferSize, BufferSize := bufferSize }

/-- Go `bufferedStream.Pipe`: `out := make(chan any, s.BufferSize)`; maps `fn`
over the upstream; result carries `BufferSize: s.BufferSize`. -/
def bufferedStream.Pipe (s : bufferedStream α) (fn : α → β) :
    bufferedStream β :=
  { stream := s.stream.map fn, chanCap := s.BufferSize,
    BufferSize := s.BufferSize }

/-- Go `bufferedStream.Filter`: `out := make(chan T, s.BufferSize)`; forwards
elements passing `fn`; result carries `BufferSize: s.BufferSize`. -/
def bufferedStream.Filter (s : bufferedStream α) (fn : α → Bool) :
    bufferedStream α :=
  { stream := s.stream.filter fn, chanCap := s.BufferSize,
    BufferSize := s.BufferSize }

/-- Go `bufferedStream.ToSlice`: same append loop as the unbuffered version. -/
def bufferedStream.ToSlice (s : bufferedStream α) : List α :=
  s.stream.foldl (fun result v => result ++ [v]) []

/-- Go `bufferedStream.ToStream`: relays into a fresh unbuffered channel. -/
def bufferedStream.ToStream (s : bufferedStream α) : streamable α :=
  ⟨s.stream⟩

/-- Go `RecastBufferedStream`: `out := make(chan T, s.BufferSize)`; forwards
elements whose type assertion succeeds, dropping the rest. -/
def RecastBufferedStream (tryCast : GoAny → Option β)
    (s : bufferedStream GoAny) : bufferedStream β :=
  { stream := s.stream.filterMap tryCast, chanCap := s.BufferSize,
    BufferSize := s.BufferSize }

/-! ## iterable (slices file) -/

/-- Go `Slicefy`. -/
def Slicefy (items : List α) : iterable α := ⟨items⟩

/-- Go `iterable.Filter`. -/
def iterable.Filter (c : iterable α) (fn : α → Bool) : iterable α :=
  ⟨c.items.filter fn⟩

/-- Go `iterable.Map`. -/
def iterable.Map (c : iterable α) (fn : α → β) : iterable β :=
  ⟨c.items.map fn⟩

/-- Go `iterable.ToSlice` returns the internal slice. -/
def iterable.ToSlice (c : iterable α) : List α := c.items

/-- Go `iterable.Slice`: `if start < 0 || end > len(c.items) || start > end
{ return empty }; return c.items[start:end]` where `items[start:end]` is the
Go half-open sub-slice. -/
def iterable.Slice (c : iterable α) (start stop : Int) : iterable α :=
  if start < 0 ∨ stop > (c.items.length : Int) ∨ start > stop then ⟨[]⟩
  else ⟨(c.items.drop start.toNat).take (stop - start).toNat⟩

/-- Go `iterable.ToStream`: worker sends every item then closes. -/
def iterable.ToStream (c : iterable α) : streamable α := ⟨c.items⟩

/-- Go `iterable.ToBufferedStream`: channel made with capacity `bufferSize`;
the returned literal `&bufferedStream{stream: ch}` leaves `BufferSize` at
its zero value. -/
def iterable.ToBufferedStream (c : iterable α) (bufferSize : Int) :
    bufferedStream α :=
  { stream := c.items, chanCap := bufferSize, BufferSize := 0 }

/-! ## Helper lemmas -/

/-- The append-accumulating drain loop collects exactly the channel
sequence. -/
theorem foldl_append_eq (l acc : List α) :
    l.foldl (fun result v => result ++ [v]) acc = acc ++ l := by
  induction l generalizing acc with
  | nil => simp
  | cons x xs ih => simp [List.foldl_cons, ih, List.append_assoc]

theorem streamable.drain_eq_stream (s : streamable α) : s.ToSlice = s.stream := by
  simpa using foldl_append_eq s.stream []

theorem bufferedStream.drainBuf_eq_stream (s : bufferedStream α) :
    s.ToSlice = s.stream := by
  simpa using foldl_append_eq s.stream []

/-- The elements of a mixed-type sequence whose runtime type is `int`, in
original relative order (stated independently of `filterMap`). -/
def intsOf : List GoAny → List Int
  | [] => []
  | .int n :: rest => n :: intsOf rest
  | .str _ :: rest => intsOf rest

theorem filterMap_asInt_eq_intsOf (l : List GoAny) :
    l.filterMap GoAny.asInt = intsOf l := by
  induction l with
  | nil => rfl
  | cons x xs ih => cases x <;> simp [intsOf, GoAny.asInt, ih]

/-! ## Claim theorems -/

/-- C1: draining `Pipe fn` applied to a stream built from a slice `S`
(unbuffered or buffered) yields exactly `List.map fn S`: same length as
`S`, each element the image of the corresponding source element, in source
order. -/
theorem pipe_drains_to_map (S : List α) (fn : α → β) (C : Int) :
    ((Streamify S).Pipe fn).ToSlice = S.map fn ∧
    ((StreamifyWithBuffer S C).Pipe fn).ToSlice = S.map fn ∧
    ((Streamify S).Pipe fn).ToSlice.length = S.length ∧
    ((StreamifyWithBuffer S C).Pipe fn).ToSlice.length = S.length ∧
    ∀ i : Nat, i < S.length →
      ((Streamify S).Pipe fn).ToSlice[i]? = (S[i]?).map fn := by
  refine ⟨?_, ?_, ?_, ?_, ?_⟩
  · simp [streamable.drain_eq_stream, Streamify, streamable.Pipe]
  · simp [bufferedStream.drainBuf_eq_stream, StreamifyWithBuffer, bufferedStream.Pipe]
  · simp [streamable.drain_eq_stream, Streamify, streamable.Pipe]
  · simp [bufferedStream.drainBuf_eq_stream, StreamifyWithBuffer, bufferedStream.Pipe]
  · intro i hi
    simp [streamable.drain_eq_stream, Streamify, streamable.Pipe,
      List.getElem?_map]

/-- C1 witness. -/
theorem pipe_drains_to_map_witness :
    (0 : Nat) < 3 ∧
      ((Streamify [1, 2, 3]).Pipe (fun n : Int => n * 2)).ToSlice[0]? =
        (([1, 2, 3] : List Int)[0]?).map (fun n : Int => n * 2) :=
  ⟨by decide,
    (pipe_drains_to_map [1, 2, 3] (fun n : Int => n * 2) 4).2.2.2.2 0
      (by decide)⟩

/-- C2: draining `Filter pred` applied to a stream built from `S`
(unbuffered or buffered) yields exactly the elements of `S` satisfying
`pred` in their original relative order; the count equals the number of
elements of `S` satisfying `pred` and is at most `S.length`. -/
theorem filter_drains_to_filter (S : List α) (pred : α → Bool) (C : Int) :
    ((Streamify S).Filter pred).ToSlice = S.filter pred ∧
    ((StreamifyWithBuffer S C).Filter pred).ToSlice = S.filter pred ∧
    ((Streamify S).Filter pred).ToSlice.length = S.countP pred ∧
    ((Streamify S).Filter pred).ToSlice.length ≤ S.length ∧
    ((Streamify S).Filter pred).ToSlice.Sublist S ∧
    ∀ x ∈ ((Streamify S).Filter pred).ToSlice, pred x = true := by
  refine ⟨?_, ?_, ?_, ?_, ?_, ?_⟩
  · simp [streamable.drain_eq_stream, Streamify, streamable.Filter]
  · simp [bufferedStream.drainBuf_eq_stream, StreamifyWithBuffer,
      bufferedStream.Filter]
  · simp [streamable.drain_eq_stream, Streamify, streamable.Filter,
      ← List.countP_eq_length_filter]
  · simp only [streamable.drain_eq_stream, Streamify, streamable.Filter]
    exact List.length_filter_le pred S
  · simp only [streamable.drain_eq_stream, Streamify, streamable.Filter]
    exact List.filter_sublist S
  · intro x hx
    simp only [streamable.drain_eq_stream, Streamify, streamable.Filter,
      List.mem_filter] at hx
    exact hx.2

/-- C3: relaying a buffered pipeline through `ToStream` and back through
`ToBufferedStream C` drains to the same element sequence as draining the
original pipeline directly, for every capacity `C`. -/
theorem round_trip_conversion (P : bufferedStream α) (C : Int) :
    ((P.ToStream).ToBufferedStream C).ToSlice = P.ToSlice := by
  simp [bufferedStream.drainBuf_eq_stream, bufferedStream.ToStream,
    streamable.ToBufferedStream]

/-- C4: draining a pipeline built from an empty slice, or from a generator
that sends zero elements, yields the empty sequence (the drain loop always
returns a slice value, modelled as a list, never an absent result). -/
theorem empty_source_drains_empty (α : Type) (C : Int) :
    (Streamify ([] : List α)).ToSlice = [] ∧
    (CreateStream ([] : List α)).ToSlice = [] ∧
    (StreamifyWithBuffer ([] : List α) C).ToSlice = [] ∧
    (CreateBufferedStream ([] : List α) C).ToSlice = [] := by
  refine ⟨?_, ?_, ?_, ?_⟩ <;>
    simp [streamable.drain_eq_stream, bufferedStream.drainBuf_eq_stream, Streamify,
      CreateStream, StreamifyWithBuffer, CreateBufferedStream]

/-- C5: recasting a dynamically-typed pipeline of mixed integers and
strings to integer element type yields exactly the elements whose runtime
type is `int`, in their original relative order; every other element is
silently dropped (the stage is total: it always produces a stream and
raises no error). -/
theorem recast_keeps_matching_elements (l : List GoAny) (C : Int) :
    (RecastStream GoAny.asInt (Streamify l)).ToSlice = intsOf l ∧
    (RecastBufferedStream GoAny.asInt
        (StreamifyWithBuffer l C)).ToSlice = intsOf l := by
  constructor
  · simp [streamable.drain_eq_stream, RecastStream, Streamify,
      filterMap_asInt_eq_intsOf]
  · simp [bufferedStream.drainBuf_eq_stream, RecastBufferedStream,
      StreamifyWithBuffer, filterMap_asInt_eq_intsOf]

/-- C6: an out-of-range request (`start > stop`, `start < 0`, or
`stop > length`) makes `Slice` return an empty iterable rather than
faulting; an in-range pair returns the half-open sub-range
`items[start:stop]`: its length is `stop - start` and its `i`-th element is
the source element at index `start + i`. -/
theorem slice_range_behavior (c : iterable α) (start stop : Int) :
    ((start < 0 ∨ stop > (c.items.length : Int) ∨ start > stop) →
      (c.Slice start stop).items = []) ∧
    (0 ≤ start → start ≤ stop → stop ≤ (c.items.length : Int) →
      ((c.Slice start stop).items.length : Int) = stop - start ∧
      ∀ i : Nat, (i : Int) < stop - start →
        (c.Slice start stop).items[i]? = c.items[start.toNat + i]?) := by
  constructor
  · intro h
    simp only [iterable.Slice, if_pos h]
  · intro h0 hss hsl
    have hcond : ¬(start < 0 ∨ stop > (c.items.length : Int) ∨
        start > stop) := by omega
    simp only [iterable.Slice, if_neg hcond]
    constructor
    · simp only [List.length_take, List.length_drop]
      omega
    · intro i hi
      rw [List.getElem?_take_of_lt (by omega), List.getElem?_drop]

/-- C6 witness: one invalid range (start > stop) yields the empty
iterable, and on the valid range [1, 3) of a four-element slice the length
and an element lookup match the half-open sub-range. -/
theorem slice_range_behavior_witness :
    (((Slicefy [10, 20, 30, 40]).Slice 3 1).items = ([] : List Int)) ∧
    ((((Slicefy [10, 20, 30, 40]).Slice 1 3).items.length : Int) = 3 - 1 ∧
      ((Slicefy ([10, 20, 30, 40] : List Int)).Slice 1 3).items[0]? =
        ([10, 20, 30, 40] : List Int)[(1 : Int).toNat + 0]?) :=
  ⟨(slice_range_behavior (Slicefy [10, 20, 30, 40]) 3 1).1
      (by right; right; decide),
    ((slice_range_behavior (Slicefy [10, 20, 30, 40]) 1 3).2
        (by decide) (by decide) (by decide)).1,
    ((slice_range_behavior (Slicefy [10, 20, 30, 40]) 1 3).2
        (by decide) (by decide) (by decide)).2 0 (by decide)⟩

/-! ## Worker close protocol (C7)

A `CreateStream` / `CreateBufferedStream` worker runs
`defer close(ch); generator(ch)`.  Go executes deferred calls both when the
surrounding function returns normally and during panic unwinding, so the
outcome of the worker is modelled for both generator outcomes. -/

/-- Final state of a pipeline source channel: the values that were sent
into it and whether it has been closed. -/
structure ChanState (α : Type) where
  sent : List α
  closed : Bool
deriving DecidableEq, Repr

/-- Outcome of running a generator with the channel: it either returns
normally after sending `sent`, or panics after sending `sent`. -/
inductive GenOutcome (α : Type) where
  | ret (sent : List α)
  | fault (sent : List α)
deriving DecidableEq, Repr

/-- Whether the generator returned normally. -/
def GenOutcome.returnsNormally : GenOutcome α → Bool
  | .ret _ => true
  | .fault _ => false

/-- The values the generator sent before finishing (normally or not). -/
def GenOutcome.sentValues : GenOutcome α → List α
  | .ret xs => xs
  | .fault xs => xs

/-- The worker body `defer close(ch); generator(ch)`: Go runs the deferred
`close(ch)` when `generator` returns normally and also while unwinding a
panic raised by `generator` (the unrecovered panic then aborts the whole
program), so the channel ends closed in both cases. -/
def createStreamWorker : GenOutcome α → ChanState α
  | .ret xs => { sent := xs, closed := true }
  | .fault xs => { sent := xs, closed := true }

/-- C7 counterexample: a generator that panics after sending one element
still leaves the channel closed (`defer` runs during panic unwinding), so
the close-on-return is not skipped and the channel is not left open,
contrary to the claim. -/
theorem generator_panic_close_counterexample :
    (createStreamWorker (GenOutcome.fault [(1 : Int)])).closed = true ∧
    (GenOutcome.fault [(1 : Int)]).returnsNormally = false := by
  decide

/-- C7 amended: the deferred close executes whether the generator returns
normally or panics; in both outcomes the worker leaves the channel closed
and containing exactly the values the generator sent (after a panic the
unrecovered panic goes on to abort the entire program, so no consumer
observes the channel at all). -/
theorem generator_close_always_runs (g : GenOutcome α) :
    (createStreamWorker g).closed = true ∧
    (createStreamWorker g).sent = g.sentValues := by
  cases g <;> simp [createStreamWorker, GenOutcome.sentValues]

/-! ## Backpressure (C8)

Small-step model of the producing worker spawned by
`CreateBufferedStream`: the stage channel is a FIFO buffer of fixed
capacity `C`; a send appends to the buffer and is enabled only while the
buffer holds fewer than `C` elements.  No consumer step is included,
modelling the phase before any consumption starts. -/

/-- State of the producing worker: the elements it has not yet sent and
the elements currently buffered in the channel (in flight). -/
structure ProducerState (α : Type) where
  pending : List α
  buffer : List α
deriving DecidableEq, Repr

/-- One producer step: with room in the buffer, send the next pending
element.  A full buffer enables no step: the send blocks. -/
inductive prodStep (C : Nat) : ProducerState α → ProducerState α → Prop
  | send (x : α) (rest buf : List α) (h : buf.length < C) :
      prodStep C ⟨x :: rest, buf⟩ ⟨rest, buf ++ [x]⟩

/-- Reachability by producer steps. -/
inductive prodReach (C : Nat) (init : ProducerState α) :
    ProducerState α → Prop
  | refl : prodReach C init init
  | next {s t : ProducerState α} : prodReach C init s → prodStep C s t →
      prodReach C init t

theorem prodReach_take (C : Nat) (items : List α) :
    ∀ k : Nat, k ≤ C → k ≤ items.length →
      prodReach C ⟨items, []⟩ ⟨items.drop k, items.take k⟩ := by
  intro k
  induction k with
  | zero =>
    intro _ _
    simpa using prodReach.refl
  | succ k ih =>
    intro hkC hkl
    have hk : k < items.length := by omega
    have hr := ih (by omega) (by omega)
    have hbuf : (items.take k).length < C := by
      simp only [List.length_take]
      omega
    have hstep : prodStep C ⟨items.drop k, items.take k⟩
        ⟨items.drop (k + 1), items.take (k + 1)⟩ := by
      rw [List.drop_eq_getElem_cons hk, ← List.take_concat_get' items k hk]
      exact prodStep.send _ _ _ hbuf
    exact prodReach.next hr hstep

/-- C8: for a bounded stage of capacity `C` fed by a producer holding more
than `C` elements, before any consumption: every reachable state has at
most `C` elements in flight and loses no element (buffer then pending is
exactly the source, in order); once `C` elements are buffered the producer
still holds pending elements and no send step is enabled (it blocks, it
does not fail); and the state with exactly `C` elements buffered is
reached. -/
theorem backpressure_bound (C : Nat) (items : List α)
    (hlen : C < items.length) :
    (∀ s, prodReach C ⟨items, []⟩ s →
      s.buffer.length ≤ C ∧ s.buffer ++ s.pending = items) ∧
    (∀ s, prodReach C ⟨items, []⟩ s → s.buffer.length = C →
      s.pending ≠ [] ∧ ∀ t, ¬ prodStep C s t) ∧
    prodReach C ⟨items, []⟩ ⟨items.drop C, items.take C⟩ ∧
    (items.take C).length = C := by
  have hinv : ∀ s, prodReach C ⟨items, []⟩ s →
      s.buffer.length ≤ C ∧ s.buffer ++ s.pending = items := by
    intro s hs
    induction hs with
    | refl => exact ⟨by simp, by simp⟩
    | next hr hstep ih =>
      cases hstep with
      | send x rest buf h =>
        refine ⟨by simp; omega, ?_⟩
        have := ih.2
        simpa [List.append_assoc] using this
  refine ⟨hinv, ?_, ?_, ?_⟩
  · intro s hs hfull
    have h2 := hinv s hs
    constructor
    · intro hnil
      have h3 := h2.2
      rw [hnil, List.append_nil] at h3
      have h4 : items.length = C := by rw [← h3, hfull]
      omega
    · intro t hstep
      cases hstep with
      | send x rest buf h =>
        have h5 : buf.length = C := hfull
        omega
  · exact prodReach_take C items C le_rfl (by omega)
  · simp only [List.length_take]
    omega

/-- C8 witness: with capacity 2 and source 1, 2, 3, the state with 1 and 2
buffered and 3 still pending is reached, and from it the send of 3 is not
enabled. -/
theorem backpressure_bound_witness :
    prodReach 2 ⟨([1, 2, 3] : List Int), []⟩ ⟨[3], [1, 2]⟩ ∧
    ¬ prodStep 2 (⟨[3], [1, 2]⟩ : ProducerState Int) ⟨[], [1, 2, 3]⟩ := by
  have h := backpressure_bound 2 ([1, 2, 3] : List Int) (by decide)
  exact ⟨h.2.2.1, (h.2.1 ⟨[3], [1, 2]⟩ h.2.2.1 rfl).2 ⟨[], [1, 2, 3]⟩⟩

/-- C2 witness: the even-number scenario on 1, 2, 3, 4. -/
theorem filter_drains_to_filter_witness :
    (((Streamify [1, 2, 3, 4]).Filter
        (fun n : Int => n % 2 == 0)).ToSlice = [2, 4]) ∧
    ((fun n : Int => n % 2 == 0) 2 = true) := by
  have h := filter_drains_to_filter ([1, 2, 3, 4] : List Int)
    (fun n => n % 2 == 0) 3
  refine ⟨?_, ?_⟩
  · rw [h.1]
    decide
  · refine h.2.2.2.2.2 2 ?_
    rw [h.1]
    decide

/-- C9: every stage chained on a buffered pipeline whose `BufferSize` is
`C` creates its output channel with capacity `C` and returns a pipeline
whose `BufferSize` equals `C` (`Pipe`, `Filter`, `RecastBufferedStream`). -/
theorem chained_stages_preserve_capacity (s : bufferedStream α)
    (d : bufferedStream GoAny) (fn : α → β) (pred : α → Bool)
    (tryCast : GoAny → Option γ) (C : Int)
    (hs : s.BufferSize = C) (hd : d.BufferSize = C) :
    (s.Pipe fn).chanCap = C ∧ (s.Pipe fn).BufferSize = C ∧
    (s.Filter pred).chanCap = C ∧ (s.Filter pred).BufferSize = C ∧
    (RecastBufferedStream tryCast d).chanCap = C ∧
    (RecastBufferedStream tryCast d).BufferSize = C := by
  simp [bufferedStream.Pipe, bufferedStream.Filter, RecastBufferedStream,
    hs, hd]

/-- C9 witness: a buffered source of size 5, piped and recast. -/
theorem chained_stages_preserve_capacity_witness :
    ((StreamifyWithBuffer ([1, 2] : List Int) 5).Pipe
      (fun n => GoAny.int n)).chanCap = 5 ∧
    (RecastBufferedStream GoAny.asInt
      (StreamifyWithBuffer [GoAny.int 7] 5)).BufferSize = 5 := by
  have h := chained_stages_preserve_capacity
    (StreamifyWithBuffer ([1, 2] : List Int) 5)
    (StreamifyWithBuffer [GoAny.int 7] 5) (fun n => GoAny.int n)
    (fun _ => true) GoAny.asInt 5 rfl rfl
  exact ⟨h.1, h.2.2.2.2.2⟩

/-- C10: converting an unbuffered stream or an iterable to a buffered
stream with any positive `bufferSize` `n` makes that relay channel with
capacity `n` but leaves the `BufferSize` field at its zero value, so any
subsequently chained `Pipe` or `Filter` stage creates a capacity-0
(unbuffered) channel despite the requested capacity. -/
theorem toBufferedStream_loses_buffer_size (s : streamable α)
    (c : iterable α) (n : Int) (fn : α → β) (pred : α → Bool)
    (_hn : 0 < n) :
    (s.ToBufferedStream n).chanCap = n ∧
    (s.ToBufferedStream n).BufferSize = 0 ∧
    (c.ToBufferedStream n).chanCap = n ∧
    (c.ToBufferedStream n).BufferSize = 0 ∧
    ((s.ToBufferedStream n).Pipe fn).chanCap = 0 ∧
    ((s.ToBufferedStream n).Filter pred).chanCap = 0 ∧
    ((c.ToBufferedStream n).Pipe fn).chanCap = 0 ∧
    ((c.ToBufferedStream n).Filter pred).chanCap = 0 := by
  simp [streamable.ToBufferedStream, iterable.ToBufferedStream,
    bufferedStream.Pipe, bufferedStream.Filter]

/-- C10 witness: requested capacity 4, field still 0, chained stage
capacity 0. -/
theorem toBufferedStream_loses_buffer_size_witness :
    ((Streamify ([1] : List Int)).ToBufferedStream 4).BufferSize = 0 ∧
    (((Slicefy ([2] : List Int)).ToBufferedStream 4).Pipe
        (fun n => GoAny.int n)).chanCap = 0 := by
  have h := toBufferedStream_loses_buffer_size (Streamify ([1] : List Int))
    (Slicefy ([2] : List Int)) 4 (fun n => GoAny.int n) (fun _ => true)
    (by decide)
  exact ⟨h.2.1, h.2.2.2.2.2.2.1⟩

end Functools
